import Mathlib

/-!
Verification of the scnt source-code counter.

The data model and operations below are shallow embeddings of the
TypeScript sources: `src/stats.ts` (the statistics records),
`src/parser/index.ts` (the plain-text parser), the C-family parser variant
(`CFamilyParser.parse`), `src/extensions.ts` (extension utilities) and
`src/scnt.ts` (the SCNT aggregator).  JavaScript numbers are modelled as
`Int` (the counters are incremented and decremented, and some corrections
can drive them below zero), strings as `List Char`, and promise
rejection as `Option`/`Except` failure.
-/

namespace Scnt

/-- LineStats record from src/stats.ts: per-category line counters. -/
structure LineStats where
  total : Int
  totalSource : Int
  source : Int
  totalComments : Int
  inlineComments : Int
  blockComments : Int
  mixed : Int
  whitespace : Int
  empty : Int
deriving Repr, DecidableEq

/-- CharacterStats record from src/stats.ts: per-class character counters. -/
structure CharacterStats where
  total : Int
  source : Int
  comment : Int
  whitespace : Int
  numerical : Int
  alphabetical : Int
  special : Int
deriving Repr, DecidableEq

/-- makeEmptyLineStatistics from src/stats.ts. -/
def makeEmptyLineStatistics : LineStats :=
  ⟨0, 0, 0, 0, 0, 0, 0, 0, 0⟩

/-- makeEmptyCharacterStatistics from src/stats.ts. -/
def makeEmptyCharacterStatistics : CharacterStats :=
  ⟨0, 0, 0, 0, 0, 0, 0⟩

/-- Statistics pair from src/stats.ts. -/
def Statistics : Type := LineStats × CharacterStats

instance : DecidableEq Statistics := by
  unfold Statistics
  infer_instance

instance : Repr Statistics := by
  unfold Statistics
  infer_instance

/-- The whitespace character class of the JavaScript regular expression
pattern backslash-s, used as `whitespacePattern` in src/parser/index.ts. -/
def isWS (c : Char) : Bool :=
  let n := c.toNat
  n == 0x20 || n == 0x09 || n == 0x0A || n == 0x0B || n == 0x0C || n == 0x0D ||
  n == 0xA0 || n == 0x1680 || (0x2000 ≤ n && n ≤ 0x200A) ||
  n == 0x2028 || n == 0x2029 || n == 0x202F || n == 0x205F ||
  n == 0x3000 || n == 0xFEFF

/-- The digit class of the JavaScript pattern backslash-d
(`numericalPattern` in src/parser/index.ts). -/
def isNum (c : Char) : Bool :=
  0x30 ≤ c.toNat && c.toNat ≤ 0x39

/-- The letter class of the JavaScript pattern [A-Za-z]
(`alphabeticalPattern` in src/parser/index.ts). -/
def isAlpha (c : Char) : Bool :=
  (0x41 ≤ c.toNat && c.toNat ≤ 0x5A) || (0x61 ≤ c.toNat && c.toNat ≤ 0x7A)

/-- Mutable scan state of Parser.parse in src/parser/index.ts:
the two statistics records under construction plus the per-line
`charIndex` and `hadChar` trackers. -/
structure PlainScan where
  lineStats : LineStats
  charStats : CharacterStats
  charIndex : Int
  hadChar : Bool
deriving Repr, DecidableEq

/-- The local `incrementLine` closure of Parser.parse
(src/parser/index.ts lines 126-137). -/
def plainIncrementLine (s : PlainScan) : PlainScan :=
  let ls := s.lineStats
  let ls1 :=
    if s.charIndex = 0 then { ls with empty := ls.empty + 1 }
    else if s.hadChar then { ls with source := ls.source + 1 }
    else { ls with whitespace := ls.whitespace + 1 }
  { s with lineStats := ls1, charIndex := 0, hadChar := false }

/-- One iteration of the character loop of Parser.parse
(src/parser/index.ts lines 140-187).  `ind` is the loop index and
`prev` the character at index `ind - 1` (none at the start). -/
def plainChar (ind : Nat) (prev : Option Char) (c : Char) (s : PlainScan) :
    PlainScan :=
  if isWS c then
    if c = '\n' then
      -- CRLF correction guarded by `ind > 1` in the source, then
      -- incrementLine; the `continue` skips the charIndex increment.
      let s1 :=
        if ind > 1 ∧ prev = some '\r' then
          { s with
            charIndex := s.charIndex - 1,
            charStats :=
              { s.charStats with whitespace := s.charStats.whitespace - 1 } }
        else s
      plainIncrementLine s1
    else
      { s with
        charStats :=
          { s.charStats with whitespace := s.charStats.whitespace + 1 },
        charIndex := s.charIndex + 1 }
  else if isNum c then
    { s with
      hadChar := true,
      charStats :=
        { s.charStats with numerical := s.charStats.numerical + 1 },
      charIndex := s.charIndex + 1 }
  else if isAlpha c then
    { s with
      hadChar := true,
      charStats :=
        { s.charStats with alphabetical := s.charStats.alphabetical + 1 },
      charIndex := s.charIndex + 1 }
  else
    { s with
      hadChar := true,
      charStats :=
        { s.charStats with special := s.charStats.special + 1 },
      charIndex := s.charIndex + 1 }

/-- The full character loop of Parser.parse. -/
def plainLoop : List Char → Nat → Option Char → PlainScan → PlainScan
  | [], _, _, s => s
  | c :: rest, ind, prev, s =>
      plainLoop rest (ind + 1) (some c) (plainChar ind prev c s)

/-- The scan state Parser.parse starts from: empty statistics,
charIndex 0, no character seen. -/
def plainInit : PlainScan :=
  ⟨makeEmptyLineStatistics, makeEmptyCharacterStatistics, 0, false⟩

/-- Parser.parse of the plain-text parser (src/parser/index.ts lines
115-201): rejects empty contents, scans, flushes the last line, and
fills in the derived totals. -/
def plainParse (contents : List Char) : Option Statistics :=
  if contents.length = 0 then none
  else
    let s1 := plainIncrementLine (plainLoop contents 0 none plainInit)
    let cs := s1.charStats
    let src := cs.numerical + cs.alphabetical + cs.special
    let cs1 := { cs with source := src, total := src + cs.whitespace }
    let ls := s1.lineStats
    let ls1 :=
      { ls with
        totalSource := ls.source,
        total := ls.source + ls.whitespace + ls.empty }
    some (ls1, cs1)

/-- Mutable scan state of CFamilyParser.parse: the plain scan state plus
the `hadSource`, `inInline` and `inBlock` comment trackers. -/
structure CScan where
  lineStats : LineStats
  charStats : CharacterStats
  charIndex : Int
  hadChar : Bool
  hadSource : Bool
  inInline : Bool
  inBlock : Bool
deriving Repr, DecidableEq

/-- The local `incrementLine` closure of CFamilyParser.parse: classifies
the closing line by the active comment mode, counts whitespace-only
lines, bumps the running total, and resets `charIndex`, `hadSource` and
`inInline` (`hadChar` and `inBlock` are left as they are, exactly as in
the source). -/
def cIncrementLine (s : CScan) : CScan :=
  let ls := s.lineStats
  let ls1 :=
    if s.inInline then
      if s.hadSource then { ls with mixed := ls.mixed + 1 }
      else { ls with inlineComments := ls.inlineComments + 1 }
    else if s.inBlock then
      if s.hadSource then { ls with mixed := ls.mixed + 1 }
      else { ls with blockComments := ls.blockComments + 1 }
    else
      let lsA := if s.charIndex = 0 then { ls with empty := ls.empty + 1 } else ls
      if s.hadChar then { lsA with source := lsA.source + 1 } else lsA
  let ls2 := if s.hadChar then ls1 else { ls1 with whitespace := ls1.whitespace + 1 }
  let ls3 := { ls2 with total := ls2.total + 1 }
  { s with lineStats := ls3, charIndex := 0, hadSource := false, inInline := false }

/-- First statement of the loop body of CFamilyParser.parse: count the
character into charStats.comment when a comment mode is already
active. -/
def cCommentCount (s : CScan) : CScan :=
  if s.inInline || s.inBlock then
    { s with
      charStats :=
        { s.charStats with comment := s.charStats.comment + 1 } }
  else s

/-- Second statement of the loop body of CFamilyParser.parse: the
two-character lookback tuple (formed only when both ind > 0 and
charIndex > 0) drives the inline/block mode transitions; opening or
closing a marker takes one off charStats.source to cancel the marker's
second character.  The charIndex compared is the one current when the
tuple is formed, passed in as `cix`. -/
def cTransition (ind : Nat) (cix : Int) (prev : Option Char) (c : Char)
    (s : CScan) : CScan :=
  let tupleIs : Char → Char → Bool := fun a b =>
    decide (ind > 0) && decide (cix > 0) &&
    decide (prev = some a) && decide (c = b)
  if !s.inInline && !s.inBlock && tupleIs '/' '/' then
    { s with
      inInline := true,
      charStats := { s.charStats with source := s.charStats.source - 1 } }
  else if tupleIs '/' '*' then
    { s with
      inInline := false, inBlock := true,
      charStats := { s.charStats with source := s.charStats.source - 1 } }
  else if s.inBlock && tupleIs '*' '/' then
    { s with
      inInline := false, inBlock := false,
      charStats := { s.charStats with source := s.charStats.source - 1 } }
  else s

/-- The character-class switch of the loop body of CFamilyParser.parse.
On a line feed the line is closed before the whitespace count; in the
non-whitespace classes the source count and the hadSource flag are only
fed when no comment mode is active (special characters never feed
hadSource). -/
def cSwitch (c : Char) (s : CScan) : CScan :=
  if isWS c then
    let s2 := if c = '\n' then cIncrementLine s else s
    { s2 with
      charStats :=
        { s2.charStats with whitespace := s2.charStats.whitespace + 1 },
      charIndex := s2.charIndex + 1 }
  else if isNum c then
    { s with
      hadChar := true,
      charStats :=
        { s.charStats with
          numerical := s.charStats.numerical + 1,
          source :=
            if !s.inInline && !s.inBlock then s.charStats.source + 1
            else s.charStats.source },
      hadSource := s.hadSource || (!s.inInline && !s.inBlock),
      charIndex := s.charIndex + 1 }
  else if isAlpha c then
    { s with
      hadChar := true,
      charStats :=
        { s.charStats with
          alphabetical := s.charStats.alphabetical + 1,
          source :=
            if !s.inInline && !s.inBlock then s.charStats.source + 1
            else s.charStats.source },
      hadSource := s.hadSource || (!s.inInline && !s.inBlock),
      charIndex := s.charIndex + 1 }
  else
    -- Special characters are not considered for source confirmation:
    -- hadSource is not updated here.
    { s with
      hadChar := true,
      charStats :=
        { s.charStats with
          special := s.charStats.special + 1,
          source :=
            if !s.inInline && !s.inBlock then s.charStats.source + 1
            else s.charStats.source },
      charIndex := s.charIndex + 1 }

/-- One iteration of the character loop of CFamilyParser.parse: the
comment-character count, the two-character lookback comment transitions,
then the character-class switch. -/
def cChar (ind : Nat) (prev : Option Char) (c : Char) (s : CScan) : CScan :=
  cSwitch c (cTransition ind s.charIndex prev c (cCommentCount s))

/-- The full character loop of CFamilyParser.parse. -/
def cLoop : List Char → Nat → Option Char → CScan → CScan
  | [], _, _, s => s
  | c :: rest, ind, prev, s =>
      cLoop rest (ind + 1) (some c) (cChar ind prev c s)

/-- The scan state CFamilyParser.parse starts from: empty statistics
and all trackers off. -/
def cInit : CScan :=
  ⟨makeEmptyLineStatistics, makeEmptyCharacterStatistics, 0,
    false, false, false, false⟩

/-- CFamilyParser.parse: rejects empty contents, scans (with no flush of
the final line after the loop), sets `charStats.total` to the input
length and fills in the derived line totals. -/
def cfamilyParse (contents : List Char) : Option Statistics :=
  if contents.length = 0 then none
  else
    let s1 := cLoop contents 0 none cInit
    let cs := { s1.charStats with total := (contents.length : Int) }
    let ls := s1.lineStats
    let ls1 :=
      { ls with
        totalSource := ls.source + ls.mixed,
        totalComments := ls.inlineComments + ls.blockComments + ls.mixed }
    some (ls1, cs)

/-- Character class rejected by the extension-cleaning regular
expression of src/extensions.ts (backslash-0, backslash, slash, colon,
star, quote characters, angle brackets, pipe and dot). -/
def badExtChar (c : Char) : Bool :=
  c = Char.ofNat 0 || c = '\\' || c = '/' || c = ':' || c = '*' ||
  c = '\'' || c = '"' || c = '<' || c = '>' || c = '|' || c = '.'

/-- ASCII lowering, the effective behaviour of toLocaleLowerCase on the
extension strings involved. -/
def asciiLower (c : Char) : Char :=
  if 0x41 ≤ c.toNat ∧ c.toNat ≤ 0x5A then Char.ofNat (c.toNat + 32) else c

/-- The String.prototype.trim step of cleanExtension: strip whitespace
from both ends. -/
def trimWS (l : List Char) : List Char :=
  ((l.dropWhile isWS).reverse.dropWhile isWS).reverse

/-- The substring after the last dot (the whole string when it has no
dot), as taken by cleanExtension via lastIndexOf and substr. -/
def afterLastDot : List Char → List Char
  | [] => []
  | c :: rest =>
      if rest.contains '.' then afterLastDot rest
      else if c = '.' then rest
      else c :: rest

/-- cleanExtension from src/extensions.ts: empty input yields empty,
the part after the last dot is rejected (empty) when it has a
disallowed character, and is lower-cased and trimmed otherwise. -/
def cleanExtension (ext : List Char) : List Char :=
  if ext.length = 0 then []
  else
    let cln := afterLastDot ext
    if cln.any badExtChar then []
    else trimWS (cln.map asciiLower)

/-- Index of the last dot of the string, minus one when there is none
(String.prototype.lastIndexOf). -/
def lastIndexOfDot (l : List Char) : Int :=
  match l.reverse.findIdx? (fun c => c = '.') with
  | none => -1
  | some i => (l.length : Int) - 1 - (i : Int)

/-- hasExtension from src/extensions.ts: non-empty, the last dot is at
index at least 1, and at least one character follows it. -/
def hasExtension (fileName : List Char) : Bool :=
  if fileName.length = 0 then false
  else
    let lastDot := lastIndexOfDot fileName
    1 ≤ lastDot && 1 < (fileName.length : Int) - lastDot

/-- extractExtension from src/extensions.ts. -/
def extractExtension (fileName : List Char) : List Char :=
  if !hasExtension fileName then []
  else cleanExtension (fileName.drop ((lastIndexOfDot fileName).toNat + 1))

/-- The two concrete parse strategies of the repository: the plain-text
base parser and the C-family variant. -/
inductive ParserKind where
  | plain
  | cfamily
deriving Repr, DecidableEq

/-- A Parser instance as held by the SCNT registry: its readonly id and
name, its mutable extension list, and (standing for the subclass
polymorphism of the source) which parse strategy it runs. -/
structure Parser where
  id : List Char
  pname : List Char
  extensions : List (List Char)
  kind : ParserKind
deriving Repr, DecidableEq

/-- Parser.parse dispatch: the plain-text Parser class runs the base
scan, the CFamilyParser subclass the comment-aware scan. -/
def parserRun (p : Parser) (contents : List Char) : Option Statistics :=
  match p.kind with
  | ParserKind.plain => plainParse contents
  | ParserKind.cfamily => cfamilyParse contents

/-- Parser.hasExtension from src/parser/index.ts: the cleaned extension
is non-empty and present in the owned list. -/
def Parser.hasExt (p : Parser) (ext : List Char) : Bool :=
  let cln := cleanExtension ext
  !cln.isEmpty && p.extensions.contains cln

/-- Map.has on the filename map, modelled on an association list. -/
def mapHas {V : Type} : List (List Char × V) → List Char → Bool
  | [], _ => false
  | e :: rest, k => if e.1 = k then true else mapHas rest k

/-- Map.set on the filename map: overwrite in place when the key is
present, append otherwise. -/
def mapSet {V : Type} : List (List Char × V) → List Char → V → List (List Char × V)
  | [], k, v => [(k, v)]
  | e :: rest, k, v => if e.1 = k then (k, v) :: rest else e :: mapSet rest k v

/-- Elementwise addition on LineStats, the effect of SCNT.increment on
the line record (Object.entries runs over all nine numeric fields). -/
def addLS (a b : LineStats) : LineStats :=
  ⟨a.total + b.total, a.totalSource + b.totalSource, a.source + b.source,
    a.totalComments + b.totalComments, a.inlineComments + b.inlineComments,
    a.blockComments + b.blockComments, a.mixed + b.mixed,
    a.whitespace + b.whitespace, a.empty + b.empty⟩

/-- Elementwise subtraction on LineStats, the effect of SCNT.decrement. -/
def subLS (a b : LineStats) : LineStats :=
  ⟨a.total - b.total, a.totalSource - b.totalSource, a.source - b.source,
    a.totalComments - b.totalComments, a.inlineComments - b.inlineComments,
    a.blockComments - b.blockComments, a.mixed - b.mixed,
    a.whitespace - b.whitespace, a.empty - b.empty⟩

/-- Elementwise addition on CharacterStats (SCNT.increment). -/
def addCS (a b : CharacterStats) : CharacterStats :=
  ⟨a.total + b.total, a.source + b.source, a.comment + b.comment,
    a.whitespace + b.whitespace, a.numerical + b.numerical,
    a.alphabetical + b.alphabetical, a.special + b.special⟩

/-- Elementwise subtraction on CharacterStats (SCNT.decrement). -/
def subCS (a b : CharacterStats) : CharacterStats :=
  ⟨a.total - b.total, a.source - b.source, a.comment - b.comment,
    a.whitespace - b.whitespace, a.numerical - b.numerical,
    a.alphabetical - b.alphabetical, a.special - b.special⟩

/-- Elementwise sum of the line records of all entries of a filename
map. -/
def sumMapLS (m : List (List Char × Statistics)) : LineStats :=
  m.foldl (fun acc e => addLS acc e.2.1) makeEmptyLineStatistics

/-- Elementwise sum of the character records of all entries of a
filename map. -/
def sumMapCS (m : List (List Char × Statistics)) : CharacterStats :=
  m.foldl (fun acc e => addCS acc e.2.2) makeEmptyCharacterStatistics

/-- The state of an SCNT aggregator instance (src/scnt.ts): the resolved
options, the extension alias table, the parser registry, the
filename-to-Statistics map and the two running totals. -/
structure SCNTState where
  requireExtension : Bool
  defaultParser : Option Parser
  extensionAliases : List (List Char × List Char)
  parsers : List Parser
  filesRead : List (List Char × Statistics)
  lineStats : LineStats
  charStats : CharacterStats
deriving Repr, DecidableEq

/-- SCNT.aliasExtension: clean the extension, then apply at most one
alias substitution (the while loop breaks after its first iteration; a
falsy stored value, the empty string, is not substituted). -/
def SCNT.aliasExtension (s : SCNTState) (ext : List Char) : List Char :=
  let repl := cleanExtension ext
  match s.extensionAliases.find? (fun e => e.1 = repl) with
  | some e => if e.2.isEmpty then repl else e.2
  | none => repl

/-- SCNT.getParserForExtension: clean the extension and return the first
registered parser claiming it; never consults the default parser. -/
def SCNT.getParserForExtension (s : SCNTState) (ext : List Char) : Option Parser :=
  let clean := cleanExtension ext
  if clean.isEmpty then none
  else s.parsers.find? (fun p => p.hasExt clean)

/-- The failure-free prefix of SCNT.process (src/scnt.ts lines 202-227):
reject empty contents, extract the extension (or reject), resolve
aliases, pick a parser (or reject) and run it.  No aggregator state is
touched here, exactly as in the source where every throw happens before
the first mutation. -/
def SCNT.resolve (s : SCNTState) (fileName contents : List Char) :
    Except String Statistics :=
  if contents.length = 0 then Except.error "Contents are empty"
  else
    let extRes : Except String (List Char) :=
      if hasExtension fileName then Except.ok (extractExtension fileName)
      else if s.requireExtension || s.defaultParser.isNone then
        Except.error
          "No file extension was found in the file name, or no defaultParser was set"
      else Except.ok []
    match extRes with
    | Except.error e => Except.error e
    | Except.ok ext0 =>
      let ext := SCNT.aliasExtension s ext0
      let parserOpt : Option Parser :=
        if !ext.isEmpty then SCNT.getParserForExtension s ext
        else s.defaultParser
      match parserOpt with
      | none =>
          Except.error
            "No matching Parser was found registered to the extension and no default available"
      | some p =>
        match parserRun p contents with
        | none => Except.error "Parser.parse received empty contents"
        | some stats => Except.ok stats

/-- The mutation suffix of SCNT.process (src/scnt.ts lines 229-239): if
the file is already tracked, decrement the totals by the NEWLY parsed
statistics (this is exactly what the source does - it passes `stats`,
not the stored record, to decrement), then increment by the new
statistics and store them under the file name. -/
def SCNT.applyStats (s : SCNTState) (fileName : List Char)
    (stats : Statistics) : SCNTState :=
  let s1 :=
    if mapHas s.filesRead fileName then
      { s with
        lineStats := subLS s.lineStats stats.1,
        charStats := subCS s.charStats stats.2 }
    else s
  { s1 with
    lineStats := addLS s1.lineStats stats.1,
    charStats := addCS s1.charStats stats.2,
    filesRead := mapSet s1.filesRead fileName stats }

/-- SCNT.process: resolve and parse, propagating failures untouched,
then reconcile the statistics into the aggregator state. -/
def SCNT.process (s : SCNTState) (fileName contents : List Char) :
    SCNTState × Except String Statistics :=
  match SCNT.resolve s fileName contents with
  | Except.error e => (s, Except.error e)
  | Except.ok stats => (SCNT.applyStats s fileName stats, Except.ok stats)

/-- SCNT.reset: clear the filename map and zero both running totals. -/
def SCNT.reset (s : SCNTState) : SCNTState :=
  { s with
    filesRead := [],
    lineStats := makeEmptyLineStatistics,
    charStats := makeEmptyCharacterStatistics }

/-- The while loop of SCNT.replaceParser (src/scnt.ts lines 392-398),
with explicit fuel: repeatedly findIndex the searched id and overwrite
that slot with the replacement, until findIndex fails.  A `some` result
is the registry on loop exit; `none` means the fuel ran out before the
loop exited. -/
def replaceLoop : Nat → List Parser → List Char → Parser → Option (List Parser)
  | 0, _, _, _ => none
  | Nat.succ fuel, parsers, pid, repl =>
    match parsers.findIdx? (fun p => p.id = pid) with
    | none => some parsers
    | some i => replaceLoop fuel (parsers.set i repl) pid repl

/-- A plain-text parser registered for the txt extension, used as a
concrete registry fixture. -/
def txtPlain : Parser :=
  ⟨String.data "plain", String.data "Plain Text", [String.data "txt"],
    ParserKind.plain⟩

/-- An aggregator as constructed with default options, with the txtPlain
parser registered. -/
def initState : SCNTState :=
  ⟨true, none, [], [txtPlain], [],
    makeEmptyLineStatistics, makeEmptyCharacterStatistics⟩

/-- The fixture file name used by the concrete scenarios. -/
def nameATxt : List Char := String.data "a.txt"

/-- A parser carrying the same id as txtPlain, used as a replacement
argument for the replaceParser loop. -/
def replacementPlain : Parser :=
  ⟨String.data "plain", String.data "Plain Text", [], ParserKind.plain⟩

/-- The Statistics the plain parser produces for the one-letter file
body used by the process fixtures. -/
def stA : Statistics :=
  (⟨1, 1, 1, 0, 0, 0, 0, 0, 0⟩, ⟨1, 1, 0, 0, 0, 1, 0⟩)

/-- The aggregator state after processing the one-letter file body
under the fixture name. -/
def s1A : SCNTState :=
  { initState with
    filesRead := [(nameATxt, stA)],
    lineStats := stA.1,
    charStats := stA.2 }

/-- A C-family scan state sitting inside an inline comment with source
seen earlier on the line, used to instantiate the line-closing
classification. -/
def csInlineFx : CScan :=
  ⟨makeEmptyLineStatistics, makeEmptyCharacterStatistics, 3,
    true, true, true, false⟩

/-- A C-family scan state sitting inside a block comment with no source
seen on the line yet. -/
def csBlockFx : CScan :=
  ⟨makeEmptyLineStatistics, makeEmptyCharacterStatistics, 3,
    true, false, false, true⟩

/-- Number of line-feed characters in a string. -/
def countNL : List Char → Int
  | [] => 0
  | c :: rest => (if c = '\n' then 1 else 0) + countNL rest

/-- Number of characters of a given class in a string. -/
def countClass (p : Char → Bool) : List Char → Int
  | [] => 0
  | c :: rest => (if p c then 1 else 0) + countClass p rest

/-- The characters the scanners classify as numerical: not whitespace
and a digit (the switch tries whitespace first). -/
def numClass (c : Char) : Bool := !isWS c && isNum c

/-- The characters the scanners classify as alphabetical. -/
def alphaClass (c : Char) : Bool := !isWS c && !isNum c && isAlpha c

/-- The characters the scanners classify as special (the default switch
case). -/
def specClass (c : Char) : Bool := !isWS c && !isNum c && !isAlpha c

/-- Number of line feeds that trigger the CRLF correction of the plain
parser: a line feed at index at least 2 whose preceding character is a
carriage return.  `ind` is the index of the first listed character and
`prev` the character before it. -/
def crlfCount : Nat → Option Char → List Char → Int
  | _, _, [] => 0
  | ind, prev, c :: rest =>
      (if c = '\n' ∧ ind > 1 ∧ prev = some '\r' then 1 else 0) +
      crlfCount (ind + 1) (some c) rest

/-- No comment marker occurs in the string: no two adjacent characters
form a double slash, a slash-star or a star-slash pair.  `prev` is the
character preceding the listed ones. -/
def noMarkers : Option Char → List Char → Bool
  | _, [] => true
  | prev, c :: rest =>
      if (prev = some '/' ∧ (c = '/' ∨ c = '*')) ∨ (prev = some '*' ∧ c = '/')
      then false
      else noMarkers (some c) rest

/-! Helper lemmas about the aggregator state. -/

theorem addLS_subLS (a b : LineStats) : addLS (subLS a b) b = a := by
  cases a; cases b
  simp only [addLS, subLS, LineStats.mk.injEq]
  omega

theorem addCS_subCS (a b : CharacterStats) : addCS (subCS a b) b = a := by
  cases a; cases b
  simp only [addCS, subCS, CharacterStats.mk.injEq]
  omega

theorem mapHas_mapSet {V : Type} (m : List (List Char × V)) (k : List Char)
    (v : V) : mapHas (mapSet m k v) k = true := by
  induction m with
  | nil => simp [mapSet, mapHas]
  | cons e rest ih =>
      by_cases he : e.1 = k
      · simp [mapSet, he, mapHas]
      · simp [mapSet, he, mapHas, ih]

theorem mapSet_mapSet {V : Type} (m : List (List Char × V)) (k : List Char)
    (v w : V) : mapSet (mapSet m k v) k w = mapSet m k w := by
  induction m with
  | nil => simp [mapSet]
  | cons e rest ih =>
      by_cases he : e.1 = k
      · simp [mapSet, he]
      · simp [mapSet, he, ih]

theorem applyStats_filesRead (s : SCNTState) (n : List Char) (st : Statistics) :
    (SCNT.applyStats s n st).filesRead = mapSet s.filesRead n st := by
  simp only [SCNT.applyStats]
  split <;> rfl

theorem applyStats_of_has (s : SCNTState) (n : List Char) (st : Statistics)
    (h : mapHas s.filesRead n = true) :
    SCNT.applyStats s n st =
      { s with
        lineStats := addLS (subLS s.lineStats st.1) st.1,
        charStats := addCS (subCS s.charStats st.2) st.2,
        filesRead := mapSet s.filesRead n st } := by
  simp only [SCNT.applyStats, h]
  rfl

theorem resolve_applyStats (s : SCNTState) (n : List Char) (st : Statistics)
    (n2 c2 : List Char) :
    SCNT.resolve (SCNT.applyStats s n st) n2 c2 = SCNT.resolve s n2 c2 := by
  simp only [SCNT.applyStats]
  split <;> rfl

theorem applyStats_applyStats (s : SCNTState) (n : List Char) (st : Statistics) :
    SCNT.applyStats (SCNT.applyStats s n st) n st = SCNT.applyStats s n st := by
  have hmem : mapHas (SCNT.applyStats s n st).filesRead n = true := by
    rw [applyStats_filesRead]
    exact mapHas_mapSet s.filesRead n st
  rw [applyStats_of_has _ _ _ hmem, addLS_subLS, addCS_subCS,
    applyStats_filesRead, mapSet_mapSet, ← applyStats_filesRead s n st]

/-- Claim C9: whenever process fails - empty contents, no usable
extension, no resolvable parser, or a rejecting parse - the aggregator
state (its filesRead map and both running totals) is exactly as it was
before the call.  In the embedding the whole returned state is
unchanged. -/
theorem scnt_process_error_no_mutation (s : SCNTState) (n c : List Char)
    (e : String) (h : (SCNT.process s n c).2 = Except.error e) :
    (SCNT.process s n c).1 = s := by
  unfold SCNT.process at h ⊢
  cases hr : SCNT.resolve s n c with
  | error e2 => rfl
  | ok st =>
      rw [hr] at h
      simp at h

/-- Witness for C9: processing empty contents fails and leaves the
fixture aggregator untouched. -/
theorem scnt_process_error_no_mutation_witness :
    (SCNT.process initState nameATxt []).1 = initState :=
  scnt_process_error_no_mutation initState nameATxt [] "Contents are empty" rfl

/-- Claim C3: a second process call with identical file name and
contents reproduces the state after the first call - in particular the
running lineStatistics and characterStatistics are unchanged - and
returns the same Statistics. -/
theorem scnt_process_idempotent (s s1 : SCNTState) (n c : List Char)
    (st : Statistics) (h : SCNT.process s n c = (s1, Except.ok st)) :
    SCNT.process s1 n c = (s1, Except.ok st) := by
  unfold SCNT.process at h
  cases hr : SCNT.resolve s n c with
  | error e =>
      rw [hr] at h
      simp at h
  | ok st0 =>
      rw [hr] at h
      have hs1 : SCNT.applyStats s n st0 = s1 := congrArg Prod.fst h
      have hst : st0 = st := by
        have h2 := congrArg Prod.snd h
        simpa using h2
      subst hst
      have hres1 : SCNT.resolve s1 n c = Except.ok st0 := by
        rw [← hs1, resolve_applyStats]
        exact hr
      unfold SCNT.process
      rw [hres1, ← hs1]
      exact congrArg (fun t => (t, Except.ok st0))
        (applyStats_applyStats s n st0)

/-- Witness for C3: re-processing the fixture file with the same
one-letter body returns the state after the first call unchanged. -/
theorem scnt_process_idempotent_witness :
    SCNT.process s1A nameATxt (String.data "a") = (s1A, Except.ok stA) :=
  scnt_process_idempotent initState s1A nameATxt (String.data "a") stA rfl

/-- Claim C1 (violated by the code): after re-processing the fixture
file with a two-letter body, the running character total is still 1
while the elementwise sum over the filesRead map has total 2 - the
running totals no longer equal the sum over the map, because process
decrements the newly parsed statistics instead of the stored ones. -/
theorem scnt_totals_mismatch_map_sum :
    (SCNT.process (SCNT.process initState nameATxt (String.data "a")).1
        nameATxt (String.data "ab")).1.charStats.total = 1 ∧
    (sumMapCS (SCNT.process (SCNT.process initState nameATxt (String.data "a")).1
        nameATxt (String.data "ab")).1.filesRead).total = 2 :=
  ⟨rfl, rfl⟩

/-- Claim C2 (violated by the code): re-processing the fixture file
with different contents leaves both running totals exactly as they were
after the first call (the decrement of the new statistics cancels the
increment), although the latest contents parse to a character total of
2; the running totals keep reflecting the old content. -/
theorem scnt_reprocess_keeps_stale_totals :
    (SCNT.process (SCNT.process initState nameATxt (String.data "a")).1
        nameATxt (String.data "ab")).1.charStats =
      (SCNT.process initState nameATxt (String.data "a")).1.charStats ∧
    (SCNT.process (SCNT.process initState nameATxt (String.data "a")).1
        nameATxt (String.data "ab")).1.lineStats =
      (SCNT.process initState nameATxt (String.data "a")).1.lineStats ∧
    ((plainParse (String.data "ab")).map fun st => st.2.total) = some 2 ∧
    (SCNT.process (SCNT.process initState nameATxt (String.data "a")).1
        nameATxt (String.data "ab")).1.charStats.total = 1 :=
  ⟨rfl, rfl, rfl, rfl⟩

theorem replaceLoop_fixpoint (fuel : Nat) :
    replaceLoop fuel [replacementPlain] (String.data "plain")
      replacementPlain = none := by
  induction fuel with
  | zero => rfl
  | succ k ih => exact ih

/-- Claim C10 (violated by the code): the replaceParser while loop
never exits when the registry holds a parser with the searched id and
the replacement carries that same id - for every amount of fuel the
loop is still running, since findIndex keeps finding the replacement it
just wrote. -/
theorem scnt_replaceParser_same_id_loops :
    ∀ fuel : Nat,
      replaceLoop fuel [txtPlain] (String.data "plain") replacementPlain
        = none := by
  intro fuel
  cases fuel with
  | zero => rfl
  | succ k => exact replaceLoop_fixpoint k

/-- Counterexample for C4: on the one-letter input (non-empty, free of
any comment marker) the C-family parser and the plain-text parser
disagree - the C-family parser never flushes the final line, so its
LineStats.total is 0 while the plain parser reports 1. -/
theorem cfamily_plain_differ_on_letter :
    cfamilyParse (String.data "a") ≠ plainParse (String.data "a") := by
  decide

/-- Counterexample for C5: on a two-character input ending in a line
feed, the plain parser's character total is 1, not the input length 2 -
line feeds are never counted into any character counter. -/
theorem plain_total_ne_length_on_newline :
    ((plainParse (String.data "a\n")).map fun st => st.2.total) ≠
      some ((String.data "a\n").length : Int) := by
  decide

/-- Claim C6 (violated by the code): on the input made of a carriage
return followed by a line feed (a CRLF at the very start), the plain
parser does count the carriage return as a whitespace character
(charStats.whitespace is 1) and classifies the line as whitespace, not
empty (lineStats.whitespace is 1) - the correction is guarded by
ind > 1 and skipped when the line feed sits at index 1. -/
theorem plain_crlf_start_uncorrected :
    plainParse (String.data "\r\n") =
      some
        ({ makeEmptyLineStatistics with total := 2, whitespace := 1, empty := 1 },
          { makeEmptyCharacterStatistics with total := 1, whitespace := 1 }) := by
  decide

/-- Claim C8 (violated by the code): on the input consisting of a
single line feed the C-family parser reports a line total of 1 while
the six line categories sum to 2 - the line is counted both as empty
and as whitespace, and the code's own self-check detects exactly this
mismatch. -/
theorem cfamily_line_sum_mismatch :
    ((cfamilyParse (String.data "\n")).map fun st =>
        (st.1.total,
          st.1.source + st.1.inlineComments + st.1.blockComments +
            st.1.mixed + st.1.whitespace + st.1.empty)) =
      some (1, 2) := by
  decide

theorem isWS_nl : isWS '\n' = true := rfl

theorem decide_nl_slash : decide (('\n' : Char) = '/') = false := rfl

theorem decide_nl_star : decide (('\n' : Char) = '*') = false := rfl

/-! Preservation facts for the three steps of the C-family loop body. -/

@[simp] theorem cCommentCount_lineStats (s : CScan) :
    (cCommentCount s).lineStats = s.lineStats := by
  unfold cCommentCount; split <;> rfl

@[simp] theorem cCommentCount_inInline (s : CScan) :
    (cCommentCount s).inInline = s.inInline := by
  unfold cCommentCount; split <;> rfl

@[simp] theorem cCommentCount_inBlock (s : CScan) :
    (cCommentCount s).inBlock = s.inBlock := by
  unfold cCommentCount; split <;> rfl

@[simp] theorem cCommentCount_hadChar (s : CScan) :
    (cCommentCount s).hadChar = s.hadChar := by
  unfold cCommentCount; split <;> rfl

@[simp] theorem cCommentCount_hadSource (s : CScan) :
    (cCommentCount s).hadSource = s.hadSource := by
  unfold cCommentCount; split <;> rfl

@[simp] theorem cCommentCount_charIndex (s : CScan) :
    (cCommentCount s).charIndex = s.charIndex := by
  unfold cCommentCount; split <;> rfl

@[simp] theorem cCommentCount_numerical (s : CScan) :
    (cCommentCount s).charStats.numerical = s.charStats.numerical := by
  unfold cCommentCount; split <;> rfl

@[simp] theorem cCommentCount_alphabetical (s : CScan) :
    (cCommentCount s).charStats.alphabetical = s.charStats.alphabetical := by
  unfold cCommentCount; split <;> rfl

@[simp] theorem cCommentCount_special (s : CScan) :
    (cCommentCount s).charStats.special = s.charStats.special := by
  unfold cCommentCount; split <;> rfl

@[simp] theorem cCommentCount_whitespace (s : CScan) :
    (cCommentCount s).charStats.whitespace = s.charStats.whitespace := by
  unfold cCommentCount; split <;> rfl

@[simp] theorem cTransition_lineStats (ind : Nat) (cix : Int)
    (prev : Option Char) (c : Char) (s : CScan) :
    (cTransition ind cix prev c s).lineStats = s.lineStats := by
  simp only [cTransition]; split_ifs <;> rfl

@[simp] theorem cTransition_hadChar (ind : Nat) (cix : Int)
    (prev : Option Char) (c : Char) (s : CScan) :
    (cTransition ind cix prev c s).hadChar = s.hadChar := by
  simp only [cTransition]; split_ifs <;> rfl

@[simp] theorem cTransition_hadSource (ind : Nat) (cix : Int)
    (prev : Option Char) (c : Char) (s : CScan) :
    (cTransition ind cix prev c s).hadSource = s.hadSource := by
  simp only [cTransition]; split_ifs <;> rfl

@[simp] theorem cTransition_charIndex (ind : Nat) (cix : Int)
    (prev : Option Char) (c : Char) (s : CScan) :
    (cTransition ind cix prev c s).charIndex = s.charIndex := by
  simp only [cTransition]; split_ifs <;> rfl

@[simp] theorem cTransition_numerical (ind : Nat) (cix : Int)
    (prev : Option Char) (c : Char) (s : CScan) :
    (cTransition ind cix prev c s).charStats.numerical
      = s.charStats.numerical := by
  simp only [cTransition]; split_ifs <;> rfl

@[simp] theorem cTransition_alphabetical (ind : Nat) (cix : Int)
    (prev : Option Char) (c : Char) (s : CScan) :
    (cTransition ind cix prev c s).charStats.alphabetical
      = s.charStats.alphabetical := by
  simp only [cTransition]; split_ifs <;> rfl

@[simp] theorem cTransition_special (ind : Nat) (cix : Int)
    (prev : Option Char) (c : Char) (s : CScan) :
    (cTransition ind cix prev c s).charStats.special
      = s.charStats.special := by
  simp only [cTransition]; split_ifs <;> rfl

@[simp] theorem cTransition_whitespace (ind : Nat) (cix : Int)
    (prev : Option Char) (c : Char) (s : CScan) :
    (cTransition ind cix prev c s).charStats.whitespace
      = s.charStats.whitespace := by
  simp only [cTransition]; split_ifs <;> rfl

@[simp] theorem cTransition_comment (ind : Nat) (cix : Int)
    (prev : Option Char) (c : Char) (s : CScan) :
    (cTransition ind cix prev c s).charStats.comment
      = s.charStats.comment := by
  simp only [cTransition]; split_ifs <;> rfl

@[simp] theorem cIncrementLine_charStats (s : CScan) :
    (cIncrementLine s).charStats = s.charStats := rfl

@[simp] theorem cIncrementLine_inInline (s : CScan) :
    (cIncrementLine s).inInline = false := rfl

@[simp] theorem cIncrementLine_inBlock (s : CScan) :
    (cIncrementLine s).inBlock = s.inBlock := rfl

@[simp] theorem cIncrementLine_hadChar (s : CScan) :
    (cIncrementLine s).hadChar = s.hadChar := rfl

theorem cTransition_nl (ind : Nat) (cix : Int) (prev : Option Char)
    (s : CScan) : cTransition ind cix prev '\n' s = s := by
  simp only [cTransition]
  simp [decide_nl_slash, decide_nl_star]

theorem cChar_nl (ind : Nat) (prev : Option Char) (s : CScan) :
    (cChar ind prev '\n' s).lineStats
        = (cIncrementLine (cCommentCount s)).lineStats ∧
    (cChar ind prev '\n' s).inInline = false ∧
    (cChar ind prev '\n' s).inBlock = s.inBlock := by
  unfold cChar
  rw [cTransition_nl]
  unfold cSwitch
  simp [isWS_nl]

/-- Counterexample for C7 as stated: on the input ';//c' followed by a
line feed, a source character ';' is counted on the (only) line
(charStats.source is 1) and the line ends while inline-comment mode is
active, yet the line is classified inlineComments, not mixed - the
discriminator the code uses is the hadSource flag, which special
characters never set even though they are source characters. -/
theorem cfamily_mixed_not_by_source_char :
    ((cfamilyParse (String.data ";//c\n")).map fun st =>
        (st.1.mixed, st.1.inlineComments, st.2.source)) = some (0, 1, 1) := by
  decide

/-- Claim C7 (amended): when a line feed is consumed while
inline-comment mode is active, the line is classified mixed when the
hadSource flag is set - that is, when a numerical or alphabetical
character was consumed earlier on the line outside both comment modes;
special characters never set the flag although they are counted as
source characters - and inlineComments otherwise, the inline flag
resets and the block flag persists; when consumed in block-comment mode
(inline off), it is classified mixed or blockComments analogously and
the block flag persists across the boundary. -/
theorem cfamily_line_close (s : CScan) (ind : Nat) (prev : Option Char) :
    (s.inInline = true →
      ((cChar ind prev '\n' s).lineStats.mixed
          = s.lineStats.mixed + (if s.hadSource then 1 else 0) ∧
        (cChar ind prev '\n' s).lineStats.inlineComments
          = s.lineStats.inlineComments + (if s.hadSource then 0 else 1) ∧
        (cChar ind prev '\n' s).lineStats.blockComments
          = s.lineStats.blockComments ∧
        (cChar ind prev '\n' s).lineStats.source = s.lineStats.source ∧
        (cChar ind prev '\n' s).lineStats.empty = s.lineStats.empty ∧
        (cChar ind prev '\n' s).inInline = false ∧
        (cChar ind prev '\n' s).inBlock = s.inBlock)) ∧
    (s.inInline = false → s.inBlock = true →
      ((cChar ind prev '\n' s).lineStats.mixed
          = s.lineStats.mixed + (if s.hadSource then 1 else 0) ∧
        (cChar ind prev '\n' s).lineStats.blockComments
          = s.lineStats.blockComments + (if s.hadSource then 0 else 1) ∧
        (cChar ind prev '\n' s).lineStats.inlineComments
          = s.lineStats.inlineComments ∧
        (cChar ind prev '\n' s).lineStats.source = s.lineStats.source ∧
        (cChar ind prev '\n' s).lineStats.empty = s.lineStats.empty ∧
        (cChar ind prev '\n' s).inInline = false ∧
        (cChar ind prev '\n' s).inBlock = true)) := by
  obtain ⟨hls, hinl, hblk⟩ := cChar_nl ind prev s
  rw [hls, hinl, hblk]
  constructor
  · intro hI
    unfold cIncrementLine
    by_cases hs : s.hadSource <;> by_cases hc : s.hadChar <;>
      simp [hI, hs, hc]
  · intro hI hB
    unfold cIncrementLine
    by_cases hs : s.hadSource <;> by_cases hc : s.hadChar <;>
      simp [hI, hB, hs, hc]

/-- Witness for C7: closing a line in inline mode with earlier source
counts a mixed line and leaves block mode off. -/
theorem cfamily_line_close_witness :
    (cChar 5 (some 'x') '\n' csInlineFx).lineStats.mixed = 1 ∧
    (cChar 5 (some 'x') '\n' csInlineFx).inBlock = false ∧
    (cChar 5 (some 'x') '\n' csBlockFx).lineStats.blockComments = 1 ∧
    (cChar 5 (some 'x') '\n' csBlockFx).inBlock = true := by
  have hIn := (cfamily_line_close csInlineFx 5 (some 'x')).1 rfl
  have hBl := (cfamily_line_close csBlockFx 5 (some 'x')).2 rfl rfl
  exact ⟨hIn.1.trans rfl, (hIn.2.2.2.2.2.2).trans rfl,
    hBl.2.1.trans rfl, hBl.2.2.2.2.2.2⟩

/-! Projection values of the empty statistics and initial scan states. -/

@[simp] theorem plainInit_lineStats : plainInit.lineStats = makeEmptyLineStatistics := rfl

@[simp] theorem plainInit_charStats : plainInit.charStats = makeEmptyCharacterStatistics := rfl

@[simp] theorem cInit_lineStats : cInit.lineStats = makeEmptyLineStatistics := rfl

@[simp] theorem cInit_charStats : cInit.charStats = makeEmptyCharacterStatistics := rfl

@[simp] theorem emptyLS_total : makeEmptyLineStatistics.total = 0 := rfl

@[simp] theorem emptyLS_source : makeEmptyLineStatistics.source = 0 := rfl

@[simp] theorem emptyLS_whitespace : makeEmptyLineStatistics.whitespace = 0 := rfl

@[simp] theorem emptyLS_empty : makeEmptyLineStatistics.empty = 0 := rfl

@[simp] theorem emptyCS_whitespace : makeEmptyCharacterStatistics.whitespace = 0 := rfl

@[simp] theorem emptyCS_numerical : makeEmptyCharacterStatistics.numerical = 0 := rfl

@[simp] theorem emptyCS_alphabetical : makeEmptyCharacterStatistics.alphabetical = 0 := rfl

@[simp] theorem emptyCS_special : makeEmptyCharacterStatistics.special = 0 := rfl

@[simp] theorem emptyCS_comment : makeEmptyCharacterStatistics.comment = 0 := rfl

theorem numClass_nl : numClass '\n' = false := rfl

theorem alphaClass_nl : alphaClass '\n' = false := rfl

theorem specClass_nl : specClass '\n' = false := rfl

@[simp] theorem plainIncrementLine_charStats (s : PlainScan) :
    (plainIncrementLine s).charStats = s.charStats := rfl

theorem plainIncrementLine_lineSum (s : PlainScan) :
    (plainIncrementLine s).lineStats.source
      + (plainIncrementLine s).lineStats.whitespace
      + (plainIncrementLine s).lineStats.empty
    = s.lineStats.source + s.lineStats.whitespace + s.lineStats.empty + 1 := by
  simp only [plainIncrementLine]
  split_ifs <;> simp <;> omega

/-- Per-character bookkeeping of the plain scan: the three
non-whitespace class counters go up by exactly one for a character of
their class, the four base counters together go up by one except that a
line feed adds nothing (and takes one back when the CRLF correction
fires), and the source/whitespace/empty line counters together go up by
one exactly at a line feed. -/
theorem plainChar_counts (ind : Nat) (prev : Option Char) (c : Char)
    (s : PlainScan) :
    (plainChar ind prev c s).charStats.numerical
        = s.charStats.numerical + (if numClass c then 1 else 0) ∧
    (plainChar ind prev c s).charStats.alphabetical
        = s.charStats.alphabetical + (if alphaClass c then 1 else 0) ∧
    (plainChar ind prev c s).charStats.special
        = s.charStats.special + (if specClass c then 1 else 0) ∧
    (plainChar ind prev c s).charStats.whitespace
        + (plainChar ind prev c s).charStats.numerical
        + (plainChar ind prev c s).charStats.alphabetical
        + (plainChar ind prev c s).charStats.special
      = s.charStats.whitespace + s.charStats.numerical
        + s.charStats.alphabetical + s.charStats.special + 1
        - (if c = '\n' then 1 else 0)
        - (if c = '\n' ∧ ind > 1 ∧ prev = some '\r' then 1 else 0) ∧
    (plainChar ind prev c s).lineStats.source
        + (plainChar ind prev c s).lineStats.whitespace
        + (plainChar ind prev c s).lineStats.empty
      = s.lineStats.source + s.lineStats.whitespace + s.lineStats.empty
        + (if c = '\n' then 1 else 0) := by
  by_cases hw : isWS c
  · by_cases hn : c = '\n'
    · subst hn
      by_cases hcr : ind > 1 ∧ prev = some '\r'
      · refine ⟨?_, ?_, ?_, ?_, ?_⟩ <;>
          simp [plainChar, isWS_nl, hcr, numClass_nl, alphaClass_nl,
            specClass_nl, plainIncrementLine_lineSum] <;> omega
      · refine ⟨?_, ?_, ?_, ?_, ?_⟩ <;>
          simp [plainChar, isWS_nl, hcr, numClass_nl, alphaClass_nl,
            specClass_nl, plainIncrementLine_lineSum] <;> omega
    · refine ⟨?_, ?_, ?_, ?_, ?_⟩ <;>
        simp [plainChar, hw, hn, numClass, alphaClass, specClass] <;> omega
  · rw [Bool.not_eq_true] at hw
    have hn : ¬(c = '\n') := by
      intro hh
      rw [hh, isWS_nl] at hw
      exact Bool.noConfusion hw
    by_cases hd : isNum c
    · refine ⟨?_, ?_, ?_, ?_, ?_⟩ <;>
        simp [plainChar, hw, hd, hn, numClass, alphaClass, specClass] <;> omega
    · rw [Bool.not_eq_true] at hd
      by_cases ha : isAlpha c
      · refine ⟨?_, ?_, ?_, ?_, ?_⟩ <;>
          simp [plainChar, hw, hd, hn, ha, numClass, alphaClass, specClass] <;>
          omega
      · rw [Bool.not_eq_true] at ha
        refine ⟨?_, ?_, ?_, ?_, ?_⟩ <;>
          simp [plainChar, hw, hd, hn, ha, numClass, alphaClass, specClass] <;>
          omega

/-- The plain scan over a whole string: class counters accumulate the
class counts, the four base counters accumulate the length minus line
feeds minus CRLF corrections, and the line counters accumulate the line
feed count. -/
theorem plainLoop_counts (l : List Char) : ∀ (ind : Nat) (prev : Option Char)
    (s : PlainScan),
    (plainLoop l ind prev s).charStats.numerical
        = s.charStats.numerical + countClass numClass l ∧
    (plainLoop l ind prev s).charStats.alphabetical
        = s.charStats.alphabetical + countClass alphaClass l ∧
    (plainLoop l ind prev s).charStats.special
        = s.charStats.special + countClass specClass l ∧
    (plainLoop l ind prev s).charStats.whitespace
        + (plainLoop l ind prev s).charStats.numerical
        + (plainLoop l ind prev s).charStats.alphabetical
        + (plainLoop l ind prev s).charStats.special
      = s.charStats.whitespace + s.charStats.numerical
        + s.charStats.alphabetical + s.charStats.special
        + ((l.length : Int) - countNL l - crlfCount ind prev l) ∧
    (plainLoop l ind prev s).lineStats.source
        + (plainLoop l ind prev s).lineStats.whitespace
        + (plainLoop l ind prev s).lineStats.empty
      = s.lineStats.source + s.lineStats.whitespace + s.lineStats.empty
        + countNL l := by
  induction l with
  | nil =>
      intro ind prev s
      simp [plainLoop, countClass, countNL, crlfCount]
  | cons c rest ih =>
      intro ind prev s
      obtain ⟨h1, h2, h3, h4, h5⟩ := plainChar_counts ind prev c s
      obtain ⟨g1, g2, g3, g4, g5⟩ := ih (ind + 1) (some c) (plainChar ind prev c s)
      rw [show plainLoop (c :: rest) ind prev s
            = plainLoop rest (ind + 1) (some c) (plainChar ind prev c s) from rfl]
      simp only [countClass, countNL, crlfCount, List.length_cons]
      refine ⟨?_, ?_, ?_, ?_, ?_⟩ <;> omega

theorem cIncrementLine_total (s : CScan) :
    (cIncrementLine s).lineStats.total = s.lineStats.total + 1 := by
  simp only [cIncrementLine]
  split_ifs <;> rfl

/-- Per-character bookkeeping of the class switch of the C-family scan:
the three class counters behave exactly as in the plain scan, and the
line total goes up by one exactly at a line feed. -/
theorem cSwitch_counts (c : Char) (s : CScan) :
    (cSwitch c s).charStats.numerical
        = s.charStats.numerical + (if numClass c then 1 else 0) ∧
    (cSwitch c s).charStats.alphabetical
        = s.charStats.alphabetical + (if alphaClass c then 1 else 0) ∧
    (cSwitch c s).charStats.special
        = s.charStats.special + (if specClass c then 1 else 0) ∧
    (cSwitch c s).lineStats.total
        = s.lineStats.total + (if c = '\n' then 1 else 0) := by
  by_cases hw : isWS c
  · by_cases hn : c = '\n'
    · subst hn
      refine ⟨?_, ?_, ?_, ?_⟩ <;>
        simp [cSwitch, isWS_nl, numClass_nl, alphaClass_nl, specClass_nl,
          cIncrementLine_total] <;> omega
    · refine ⟨?_, ?_, ?_, ?_⟩ <;>
        simp [cSwitch, hw, hn, numClass, alphaClass, specClass] <;> omega
  · rw [Bool.not_eq_true] at hw
    have hn : ¬(c = '\n') := by
      intro hh
      rw [hh, isWS_nl] at hw
      exact Bool.noConfusion hw
    by_cases hd : isNum c
    · refine ⟨?_, ?_, ?_, ?_⟩ <;>
        simp [cSwitch, hw, hd, hn, numClass, alphaClass, specClass] <;> omega
    · rw [Bool.not_eq_true] at hd
      by_cases ha : isAlpha c
      · refine ⟨?_, ?_, ?_, ?_⟩ <;>
          simp [cSwitch, hw, hd, hn, ha, numClass, alphaClass, specClass] <;>
          omega
      · rw [Bool.not_eq_true] at ha
        refine ⟨?_, ?_, ?_, ?_⟩ <;>
          simp [cSwitch, hw, hd, hn, ha, numClass, alphaClass, specClass] <;>
          omega

theorem cChar_counts (ind : Nat) (prev : Option Char) (c : Char) (s : CScan) :
    (cChar ind prev c s).charStats.numerical
        = s.charStats.numerical + (if numClass c then 1 else 0) ∧
    (cChar ind prev c s).charStats.alphabetical
        = s.charStats.alphabetical + (if alphaClass c then 1 else 0) ∧
    (cChar ind prev c s).charStats.special
        = s.charStats.special + (if specClass c then 1 else 0) ∧
    (cChar ind prev c s).lineStats.total
        = s.lineStats.total + (if c = '\n' then 1 else 0) := by
  have h := cSwitch_counts c (cTransition ind s.charIndex prev c (cCommentCount s))
  unfold cChar
  simpa using h

theorem cLoop_counts (l : List Char) : ∀ (ind : Nat) (prev : Option Char)
    (s : CScan),
    (cLoop l ind prev s).charStats.numerical
        = s.charStats.numerical + countClass numClass l ∧
    (cLoop l ind prev s).charStats.alphabetical
        = s.charStats.alphabetical + countClass alphaClass l ∧
    (cLoop l ind prev s).charStats.special
        = s.charStats.special + countClass specClass l ∧
    (cLoop l ind prev s).lineStats.total
        = s.lineStats.total + countNL l := by
  induction l with
  | nil =>
      intro ind prev s
      simp [cLoop, countClass, countNL]
  | cons c rest ih =>
      intro ind prev s
      obtain ⟨h1, h2, h3, h4⟩ := cChar_counts ind prev c s
      obtain ⟨g1, g2, g3, g4⟩ := ih (ind + 1) (some c) (cChar ind prev c s)
      rw [show cLoop (c :: rest) ind prev s
            = cLoop rest (ind + 1) (some c) (cChar ind prev c s) from rfl]
      simp only [countClass, countNL]
      refine ⟨?_, ?_, ?_, ?_⟩ <;> omega

theorem cCommentCount_off (s : CScan) (hI : s.inInline = false)
    (hB : s.inBlock = false) : cCommentCount s = s := by
  unfold cCommentCount
  simp [hI, hB]

theorem cTransition_off (ind : Nat) (cix : Int) (prev : Option Char)
    (c : Char) (s : CScan) (hB : s.inBlock = false)
    (hm : ¬(prev = some '/' ∧ (c = '/' ∨ c = '*'))) :
    cTransition ind cix prev c s = s := by
  simp only [cTransition]
  by_cases hp : prev = some '/'
  · have hc1 : ¬(c = '/') := fun hh => hm ⟨hp, Or.inl hh⟩
    have hc2 : ¬(c = '*') := fun hh => hm ⟨hp, Or.inr hh⟩
    simp [hp, hc1, hc2, hB]
  · simp [hp, hB]

theorem cChar_no_comment (ind : Nat) (prev : Option Char) (c : Char)
    (s : CScan) (hI : s.inInline = false) (hB : s.inBlock = false)
    (hm : ¬(prev = some '/' ∧ (c = '/' ∨ c = '*'))) :
    (cChar ind prev c s).inInline = false ∧
    (cChar ind prev c s).inBlock = false ∧
    (cChar ind prev c s).charStats.comment = s.charStats.comment := by
  unfold cChar
  rw [cCommentCount_off s hI hB, cTransition_off ind s.charIndex prev c s hB hm]
  unfold cSwitch
  by_cases hw : isWS c
  · by_cases hn : c = '\n'
    · subst hn
      refine ⟨?_, ?_, ?_⟩ <;> simp [isWS_nl, hB]
    · refine ⟨?_, ?_, ?_⟩ <;> simp [hw, hn, hI, hB]
  · rw [Bool.not_eq_true] at hw
    by_cases hd : isNum c
    · refine ⟨?_, ?_, ?_⟩ <;> simp [hw, hd, hI, hB]
    · rw [Bool.not_eq_true] at hd
      by_cases ha : isAlpha c
      · refine ⟨?_, ?_, ?_⟩ <;> simp [hw, hd, ha, hI, hB]
      · rw [Bool.not_eq_true] at ha
        refine ⟨?_, ?_, ?_⟩ <;> simp [hw, hd, ha, hI, hB]

/-- Over a marker-free string the C-family scan never enters a comment
mode and never counts a comment character. -/
theorem cLoop_no_comment (l : List Char) : ∀ (ind : Nat) (prev : Option Char)
    (s : CScan), noMarkers prev l = true → s.inInline = false →
    s.inBlock = false →
    (cLoop l ind prev s).inInline = false ∧
    (cLoop l ind prev s).inBlock = false ∧
    (cLoop l ind prev s).charStats.comment = s.charStats.comment := by
  induction l with
  | nil =>
      intro ind prev s _ hI hB
      exact ⟨hI, hB, rfl⟩
  | cons c rest ih =>
      intro ind prev s hm hI hB
      have hsplit : ¬((prev = some '/' ∧ (c = '/' ∨ c = '*')) ∨
          (prev = some '*' ∧ c = '/')) ∧ noMarkers (some c) rest = true := by
        by_cases hbad : (prev = some '/' ∧ (c = '/' ∨ c = '*')) ∨
            (prev = some '*' ∧ c = '/')
        · simp only [noMarkers, if_pos hbad] at hm
          exact Bool.noConfusion hm
        · simp only [noMarkers, if_neg hbad] at hm
          exact ⟨hbad, hm⟩
      have hstep := cChar_no_comment ind prev c s hI hB
        (fun hx => hsplit.1 (Or.inl hx))
      have hrest := ih (ind + 1) (some c) (cChar ind prev c s) hsplit.2
        hstep.1 hstep.2.1
      rw [show cLoop (c :: rest) ind prev s
            = cLoop rest (ind + 1) (some c) (cChar ind prev c s) from rfl]
      exact ⟨hrest.1, hrest.2.1, hrest.2.2.trans hstep.2.2⟩

/-- Claim C5 (amended): for every non-empty input the plain parser's
line total equals source + whitespace + empty, and its character total
equals the input length minus the line feeds minus the carriage returns
removed by the CRLF correction (it equals the plain length only for
inputs free of line feeds). -/
theorem plain_parse_totals (l : List Char) (h : l ≠ []) :
    ∃ st, plainParse l = some st ∧
      st.1.total = st.1.source + st.1.whitespace + st.1.empty ∧
      st.2.total = (l.length : Int) - countNL l - crlfCount 0 none l := by
  have hlen : ¬(l.length = 0) := by simpa using h
  obtain ⟨h1, h2, h3, h4, h5⟩ := plainLoop_counts l 0 none plainInit
  simp at h1 h2 h3 h4 h5
  unfold plainParse
  rw [if_neg hlen]
  refine ⟨_, rfl, rfl, ?_⟩
  show (plainIncrementLine (plainLoop l 0 none plainInit)).charStats.numerical
      + (plainIncrementLine (plainLoop l 0 none plainInit)).charStats.alphabetical
      + (plainIncrementLine (plainLoop l 0 none plainInit)).charStats.special
      + (plainIncrementLine (plainLoop l 0 none plainInit)).charStats.whitespace
      = (l.length : Int) - countNL l - crlfCount 0 none l
  simp only [plainIncrementLine_charStats]
  omega

/-- Witness for the amended C5 at a concrete input with a CRLF pair. -/
theorem plain_parse_totals_witness :
    ∃ st, plainParse (String.data "a\r\n") = some st ∧
      st.1.total = st.1.source + st.1.whitespace + st.1.empty ∧
      st.2.total = ((String.data "a\r\n").length : Int)
        - countNL (String.data "a\r\n")
        - crlfCount 0 none (String.data "a\r\n") :=
  plain_parse_totals (String.data "a\r\n") (by decide)

/-- Claim C4 (amended): on non-empty marker-free inputs the two parsers
agree on the numerical, alphabetical and special character counts and
the C-family comment count is zero, but their results still differ: the
plain parser's line total is always one more than the C-family
parser's, because only the plain parser flushes the line in progress at
the end of the input. -/
theorem cfamily_plain_agreement (l : List Char) (h1 : l ≠ [])
    (h2 : noMarkers none l = true) :
    ∃ stP stC, plainParse l = some stP ∧ cfamilyParse l = some stC ∧
      stC.2.comment = 0 ∧
      stC.2.numerical = stP.2.numerical ∧
      stC.2.alphabetical = stP.2.alphabetical ∧
      stC.2.special = stP.2.special ∧
      stP.1.total = stC.1.total + 1 := by
  have hlen : ¬(l.length = 0) := by simpa using h1
  obtain ⟨p1, p2, p3, p4, p5⟩ := plainLoop_counts l 0 none plainInit
  obtain ⟨c1, c2, c3, c4⟩ := cLoop_counts l 0 none cInit
  have hcom := (cLoop_no_comment l 0 none cInit h2 rfl rfl).2.2
  simp at p1 p2 p3 p5 c1 c2 c3 c4 hcom
  have hfl := plainIncrementLine_lineSum (plainLoop l 0 none plainInit)
  unfold plainParse cfamilyParse
  rw [if_neg hlen, if_neg hlen]
  refine ⟨_, _, rfl, rfl, ?_, ?_, ?_, ?_, ?_⟩
  · show (cLoop l 0 none cInit).charStats.comment = 0
    exact hcom
  · show (cLoop l 0 none cInit).charStats.numerical
        = (plainIncrementLine (plainLoop l 0 none plainInit)).charStats.numerical
    simp only [plainIncrementLine_charStats]
    omega
  · show (cLoop l 0 none cInit).charStats.alphabetical
        = (plainIncrementLine (plainLoop l 0 none plainInit)).charStats.alphabetical
    simp only [plainIncrementLine_charStats]
    omega
  · show (cLoop l 0 none cInit).charStats.special
        = (plainIncrementLine (plainLoop l 0 none plainInit)).charStats.special
    simp only [plainIncrementLine_charStats]
    omega
  · show (plainIncrementLine (plainLoop l 0 none plainInit)).lineStats.source
        + (plainIncrementLine (plainLoop l 0 none plainInit)).lineStats.whitespace
        + (plainIncrementLine (plainLoop l 0 none plainInit)).lineStats.empty
        = (cLoop l 0 none cInit).lineStats.total + 1
    omega

/-- Witness for the amended C4 at a concrete marker-free input. -/
theorem cfamily_plain_agreement_witness :
    ∃ stP stC, plainParse (String.data "ab") = some stP ∧
      cfamilyParse (String.data "ab") = some stC ∧
      stC.2.comment = 0 ∧
      stC.2.numerical = stP.2.numerical ∧
      stC.2.alphabetical = stP.2.alphabetical ∧
      stC.2.special = stP.2.special ∧
      stP.1.total = stC.1.total + 1 :=
  cfamily_plain_agreement (String.data "ab") (by decide) (by decide)

end Scnt
